import Mathlib

/-!
Verification of the XP/leveling core of the kbc-rpg-prototype repository.

Two variants are embedded:
* `Tamagotchi.GameState.gain_xp` from `src/ai_tamagotchi.py` (lines 147-154):
  add the amount, then repeatedly subtract `level * 100` and increment the
  level while the threshold is met, printing one level-up notification per
  crossing.  The while-loop is embedded fuel-indexed (`none` = fuel ran out),
  and fuel sufficiency is proved separately.
* `KBC.Player.gain_xp` from `src/kbc_world.py` (lines 58-67): clamp the
  amount into `[0, 1]`, then add it to both `xp` and `total_xp`; no leveling.
  The Library/Oracle tiles and the gate test on `total_xp` are embedded as
  pure functions returning the (possibly updated) player.
-/

namespace Tamagotchi

/-- The XP-relevant state of `GameState` in `src/ai_tamagotchi.py`
(`history` and `state_file` are I/O concerns outside the XP core). -/
structure GameState where
  xp : Int
  level : Int
deriving DecidableEq, Repr

/-- Initial state: `xp = 0`, `level = 1` (the dataclass defaults). -/
def GameState.init : GameState := ⟨0, 1⟩

/-- The list of level-up notifications emitted when the level climbs from
`level` through `count` successive increments: `level+1, level+2, ...`
(the source prints the new level after each increment). -/
def notifList (level : Int) : Nat → List Int
  | 0 => []
  | Nat.succ k => (level + 1) :: notifList (level + 1) k

/-- Notifications emitted while the level rises from `level` to `l`. -/
def notifRange (level l : Int) : List Int := notifList level (l - level).toNat

/-- The while-loop of `GameState.gain_xp` (src/ai_tamagotchi.py:151-154):
`while xp >= level * 100: xp -= level * 100; level += 1; print(level)`.
Fuel-indexed; returns `none` when the fuel runs out with the loop condition
still true, otherwise the final `(xp, level, notifications)`. -/
def levelLoop : Nat → Int → Int → List Int → Option (Int × Int × List Int)
  | 0, xp, level, notifs =>
      if level * 100 ≤ xp then none else some (xp, level, notifs)
  | Nat.succ fuel, xp, level, notifs =>
      if level * 100 ≤ xp then
        levelLoop fuel (xp - level * 100) (level + 1) (notifs ++ [level + 1])
      else some (xp, level, notifs)

/-- Fuel sufficient for `levelLoop` starting at the given xp value: each
iteration with `level ≥ 1` removes at least 100 xp. -/
def gainFuel (xp : Int) : Nat := xp.toNat / 100 + 1

/-- `GameState.gain_xp` (src/ai_tamagotchi.py:147-154): `xp += amount`,
then the level-up loop.  The result pairs the new state with the list of
level-up notifications printed, in emission order. -/
def GameState.gain_xp (st : GameState) (amount : Int) :
    Option (GameState × List Int) :=
  (levelLoop (gainFuel (st.xp + amount)) (st.xp + amount) st.level []).map
    (fun r => (⟨r.1, r.2.1⟩, r.2.2))

theorem levelLoop_isSome (fuel : Nat) : ∀ (xp level : Int) (notifs : List Int),
    1 ≤ level → xp.toNat ≤ fuel * 100 →
    (levelLoop fuel xp level notifs).isSome := by
  induction fuel with
  | zero =>
      intro xp level notifs hlev hle
      have hc : ¬ (level * 100 ≤ xp) := by omega
      simp [levelLoop, hc]
  | succ n ih =>
      intro xp level notifs hlev hle
      by_cases hc : level * 100 ≤ xp
      · simp only [levelLoop, if_pos hc]
        exact ih _ _ _ (by omega) (by omega)
      · simp [levelLoop, hc]

theorem notifRange_refl (level : Int) : notifRange level level = [] := by
  simp [notifRange, notifList]

theorem notifRange_cons (level l : Int) (h : level + 1 ≤ l) :
    notifRange level l = (level + 1) :: notifRange (level + 1) l := by
  unfold notifRange
  have h1 : (l - level).toNat = (l - (level + 1)).toNat + 1 := by omega
  rw [h1, notifList]

theorem levelLoop_spec (fuel : Nat) : ∀ (xp level : Int) (notifs : List Int)
    (x l : Int) (ns : List Int),
    levelLoop fuel xp level notifs = some (x, l, ns) →
    level ≤ l ∧ x < l * 100 ∧ (0 ≤ xp → 0 ≤ x) ∧
      ns = notifs ++ notifRange level l := by
  induction fuel with
  | zero =>
      intro xp level notifs x l ns h
      by_cases hc : level * 100 ≤ xp
      · simp [levelLoop, hc] at h
      · simp [levelLoop, hc] at h
        obtain ⟨hx, hl, hns⟩ := h
        subst hx; subst hl; subst hns
        exact ⟨le_refl _, by omega, fun h0 => h0, by simp [notifRange_refl]⟩
  | succ n ih =>
      intro xp level notifs x l ns h
      by_cases hc : level * 100 ≤ xp
      · simp only [levelLoop, if_pos hc] at h
        obtain ⟨hlev, hx, hpos, hns⟩ := ih _ _ _ _ _ _ h
        refine ⟨by omega, hx, fun _ => hpos (by omega), ?_⟩
        rw [hns, notifRange_cons level l (by omega)]
        simp
      · simp [levelLoop, hc] at h
        obtain ⟨hx, hl, hns⟩ := h
        subst hx; subst hl; subst hns
        exact ⟨le_refl _, by omega, fun h0 => h0, by simp [notifRange_refl]⟩

theorem gain_xp_eq_some (st : GameState) (a : Int) (hlev : 1 ≤ st.level) :
    ∃ st' ns, st.gain_xp a = some (st', ns) := by
  have h := levelLoop_isSome (gainFuel (st.xp + a)) (st.xp + a) st.level []
    hlev (by unfold gainFuel; omega)
  rw [Option.isSome_iff_exists] at h
  obtain ⟨r, hr⟩ := h
  exact ⟨⟨r.1, r.2.1⟩, r.2.2, by unfold GameState.gain_xp; rw [hr]; rfl⟩

theorem gain_xp_spec (st : GameState) (a : Int) (st' : GameState)
    (ns : List Int) (h : st.gain_xp a = some (st', ns)) :
    st.level ≤ st'.level ∧ st'.xp < st'.level * 100 ∧
      (0 ≤ st.xp + a → 0 ≤ st'.xp) ∧ ns = notifRange st.level st'.level := by
  unfold GameState.gain_xp at h
  rw [Option.map_eq_some'] at h
  obtain ⟨⟨x, l, ns0⟩, hloop, heq⟩ := h
  obtain ⟨hlev, hx, hpos, hns⟩ := levelLoop_spec _ _ _ _ _ _ _ hloop
  obtain ⟨hst, hns0⟩ := Prod.mk.injEq .. ▸ heq
  cases hst
  simp only [List.nil_append] at hns
  exact ⟨hlev, hx, hpos, hns0 ▸ hns⟩

/-- Apply `gain_xp` for each amount in turn, collecting the state after each
call (the call sequence driven by the chat loop of ai_tamagotchi.py).
`none` if any call runs out of fuel. -/
def runGains : GameState → List Int → Option (List GameState)
  | _, [] => some []
  | st, a :: as =>
    match st.gain_xp a with
    | none => none
    | some (st', _) =>
      match runGains st' as with
      | none => none
      | some sts => some (st' :: sts)

theorem runGains_inv (as : List Int) : ∀ st : GameState,
    0 ≤ st.xp → 1 ≤ st.level → (∀ a ∈ as, 0 ≤ a) →
    ∃ states, runGains st as = some states ∧
      ∀ s ∈ states, 0 ≤ s.xp ∧ s.xp < s.level * 100 ∧ 1 ≤ s.level := by
  induction as with
  | nil => intro st _ _ _; exact ⟨[], rfl, by simp⟩
  | cons a as ih =>
      intro st hxp hlev hall
      obtain ⟨st', ns, hg⟩ := gain_xp_eq_some st a hlev
      obtain ⟨hlev', hlt, hpos, _⟩ := gain_xp_spec st a st' ns hg
      have ha : 0 ≤ a := hall a (by simp)
      have hxp' : 0 ≤ st'.xp := hpos (by omega)
      obtain ⟨sts, hrun, hinv⟩ := ih st' hxp' (by omega)
        (fun b hb => hall b (by simp [hb]))
      refine ⟨st' :: sts, ?_, ?_⟩
      · simp only [runGains, hg, hrun]
      · intro s hs
        rcases List.mem_cons.mp hs with h | h
        · subst h; exact ⟨hxp', hlt, by omega⟩
        · exact hinv s h

end Tamagotchi

namespace KBC

/-- The state of `Player` in `src/kbc_world.py` (lines 44-56): grid
position, session xp, lifetime total xp, and age in ticks. -/
structure Player where
  x : Int
  y : Int
  xp : Int
  total_xp : Int
  age : Int
deriving DecidableEq, Repr

/-- `Player.__init__` (src/kbc_world.py:47-56): position from the start
arguments (default `(2, 2)`), `xp = 0`, `total_xp = 0`, `age = 0`. -/
def Player.start (start_x : Int := 2) (start_y : Int := 2) : Player :=
  ⟨start_x, start_y, 0, 0, 0⟩

/-- The clamp applied by `Player.gain_xp`:
`amount = max(0, min(amount, 1))` (src/kbc_world.py:65). -/
def clampGain (amount : Int) : Int := max 0 (min amount 1)

/-- `Player.gain_xp` (src/kbc_world.py:58-67): clamp the amount into
`[0, 1]`, then add it to both the session `xp` and the lifetime
`total_xp`. -/
def Player.gain_xp (p : Player) (amount : Int) : Player :=
  { p with xp := p.xp + clampGain amount,
           total_xp := p.total_xp + clampGain amount }

/-- `Player.tick` (src/kbc_world.py:69-74): `age += 1`. -/
def Player.tick (p : Player) : Player := { p with age := p.age + 1 }

/-- `Player.move` (src/kbc_world.py:76-84): move by `(dx, dy)` when the
target stays inside the grid; the Bool is the Python return value. -/
def Player.move (p : Player) (dx dy world_width world_height : Int) :
    Bool × Player :=
  let new_x := p.x + dx
  let new_y := p.y + dy
  if 0 ≤ new_x ∧ new_x < world_width ∧ 0 ≤ new_y ∧ new_y < world_height then
    (true, { p with x := new_x, y := new_y })
  else (false, p)

/-- The gate test shared by `Library.enter` (src/kbc_world.py:156) and
`Library.interact` (src/kbc_world.py:162): the player passes the gate
exactly when `player.total_xp < threshold` is false.  The pair returns the
gate result together with the (unchanged) player, making the absence of
mutation explicit. -/
def gateCheck (p : Player) (threshold : Int) : Bool × Player :=
  (! decide (p.total_xp < threshold), p)

/-- `Library` (src/kbc_world.py:148-153): carries the required total XP,
default 50. -/
structure Library where
  required_total_xp : Int := 50

/-- `Library.enter` (src/kbc_world.py:155-159): prints a locked-door
message when the gate fails; the Bool records whether the message was
printed.  The player is never modified. -/
def Library.enter (lib : Library) (p : Player) : Bool × Player :=
  (decide (p.total_xp < lib.required_total_xp), p)

/-- `Library.interact` (src/kbc_world.py:161-173): unhandled (`false`)
when the gate fails; on `"study"` awards 1 XP via `gain_xp`. -/
def Library.interact (lib : Library) (p : Player) (command : String) :
    Bool × Player :=
  if p.total_xp < lib.required_total_xp then (false, p)
  else if command = "study" then (true, p.gain_xp 1)
  else (false, p)

/-- `Oracle.interact` (src/kbc_world.py:125-145): on `"ask"` awards 1 XP
regardless of the answer (the question choice and the answer only affect
the printed text, never the XP update). -/
def Oracle.interact (p : Player) (command : String) : Bool × Player :=
  if command = "ask" then (true, p.gain_xp 1) else (false, p)

/-- The operations the game loop of kbc_world.py can apply to the player
state: direct XP gains, the time tick, grid movement, and the tile
interactions (Library gate and study, Oracle ask). -/
inductive Op where
  | gain (amount : Int)
  | tick
  | move (dx dy w h : Int)
  | libEnter (required : Int)
  | libInteract (required : Int) (command : String)
  | oracleInteract (command : String)
deriving DecidableEq, Repr

/-- Apply one operation to the player, keeping only the state change. -/
def applyOp (p : Player) : Op → Player
  | .gain a => p.gain_xp a
  | .tick => p.tick
  | .move dx dy w h => (p.move dx dy w h).2
  | .libEnter r => (Library.enter ⟨r⟩ p).2
  | .libInteract r c => (Library.interact ⟨r⟩ p c).2
  | .oracleInteract c => (Oracle.interact p c).2

theorem clampGain_nonneg (a : Int) : 0 ≤ clampGain a := le_max_left 0 _

theorem clampGain_le_one (a : Int) : clampGain a ≤ 1 := by
  unfold clampGain; omega

theorem applyOp_total_mono (p : Player) (op : Op) :
    p.total_xp ≤ (applyOp p op).total_xp := by
  cases op with
  | gain a => simpa [applyOp, Player.gain_xp] using clampGain_nonneg a
  | tick => simp [applyOp, Player.tick]
  | move dx dy w h =>
      simp only [applyOp, Player.move]
      split <;> simp
  | libEnter r => simp [applyOp, Library.enter]
  | libInteract r c =>
      simp only [applyOp, Library.interact]
      split
      · simp
      · split
        · simpa [Player.gain_xp] using clampGain_nonneg 1
        · simp
  | oracleInteract c =>
      simp only [applyOp, Oracle.interact]
      split
      · simpa [Player.gain_xp] using clampGain_nonneg 1
      · simp

theorem foldl_gain_total (as : List Int) : ∀ p : Player,
    (as.foldl Player.gain_xp p).total_xp =
      p.total_xp + (as.map clampGain).sum := by
  induction as with
  | nil => intro p; simp
  | cons a as ih =>
      intro p
      simp only [List.foldl_cons, List.map_cons, List.sum_cons, ih,
        Player.gain_xp]
      ring

theorem applyOp_xp_eq_total (p : Player) (op : Op)
    (h : p.xp = p.total_xp) : (applyOp p op).xp = (applyOp p op).total_xp := by
  cases op with
  | gain a => simp [applyOp, Player.gain_xp, h]
  | tick => simp [applyOp, Player.tick, h]
  | move dx dy w h' =>
      simp only [applyOp, Player.move]
      split <;> simp [h]
  | libEnter r => simp [applyOp, Library.enter, h]
  | libInteract r c =>
      simp only [applyOp, Library.interact]
      split
      · simp [h]
      · split <;> simp [Player.gain_xp, h]
  | oracleInteract c =>
      simp only [applyOp, Oracle.interact]
      split <;> simp [Player.gain_xp, h]

/-- Modelled from the spec: the `unclamped` KBC policy named in §4.1 as a
required configuration alongside `clamp_to_one` is not present in src/
(kbc_world.py hardcodes the clamp); per the spec its effect is
`xp += amount; totalXp += amount` with no threshold logic. -/
def unclampedGain (p : Player) (amount : Int) : Player :=
  { p with xp := p.xp + amount, total_xp := p.total_xp + amount }

end KBC

/-- Claim C1: for every sequence of calls to the Tamagotchi-variant
`gain_xp` with non-negative amounts, starting from `xp = 0, level = 1`,
every call returns and after each call `0 ≤ xp < level * 100` and
`level ≥ 1`. -/
theorem gain_xp_sequence_invariant (amounts : List Int)
    (h : ∀ a ∈ amounts, 0 ≤ a) :
    ∃ states,
      Tamagotchi.runGains Tamagotchi.GameState.init amounts = some states ∧
      ∀ s ∈ states, 0 ≤ s.xp ∧ s.xp < s.level * 100 ∧ 1 ≤ s.level :=
  Tamagotchi.runGains_inv amounts Tamagotchi.GameState.init
    (le_refl 0) (le_refl 1) h

/-- Concrete instance of C1 at the amount sequence `[450, 50]`. -/
theorem gain_xp_sequence_invariant_witness :
    (∀ a ∈ ([450, 50] : List Int), 0 ≤ a) ∧
      ∃ states,
        Tamagotchi.runGains Tamagotchi.GameState.init [450, 50] = some states ∧
        ∀ s ∈ states, 0 ≤ s.xp ∧ s.xp < s.level * 100 ∧ 1 ≤ s.level :=
  ⟨by decide, gain_xp_sequence_invariant [450, 50] (by decide)⟩

/-- Claim C2: a single Tamagotchi `gain_xp` call emits exactly one
notification per threshold crossed, in ascending order (`notifRange`
lists `level+1, ..., level'` consecutively), finishing below the final
threshold; concretely, `gain_xp 450` from `{xp:0, level:1}` notifies
levels 2 and 3 and leaves `{xp:150, level:3}`. -/
theorem gain_xp_notifications :
    (∀ (st : Tamagotchi.GameState) (a : Int)
        (st' : Tamagotchi.GameState) (ns : List Int),
        st.gain_xp a = some (st', ns) →
        ns = Tamagotchi.notifRange st.level st'.level ∧
          st'.xp < st'.level * 100) ∧
      Tamagotchi.GameState.init.gain_xp 450 = some (⟨150, 3⟩, [2, 3]) ∧
      Tamagotchi.notifRange 1 3 = [2, 3] := by
  refine ⟨fun st a st' ns h => ?_, by decide, by decide⟩
  obtain ⟨_, hlt, _, hns⟩ := Tamagotchi.gain_xp_spec st a st' ns h
  exact ⟨hns, hlt⟩

/-- Concrete instance of C2 at `gain_xp 450` from the initial state. -/
theorem gain_xp_notifications_witness :
    ([2, 3] : List Int) =
        Tamagotchi.notifRange Tamagotchi.GameState.init.level
          (Tamagotchi.GameState.mk 150 3).level ∧
      (Tamagotchi.GameState.mk 150 3).xp <
        (Tamagotchi.GameState.mk 150 3).level * 100 :=
  gain_xp_notifications.1 Tamagotchi.GameState.init 450 ⟨150, 3⟩ [2, 3]
    (by decide)

/-- Claim C3: the code does not reject negative amounts.  The Tamagotchi
variant applies them directly — `gain_xp (-30)` from `{xp:50, level:1}`
returns successfully with the changed state `{xp:20, level:1}` — and the
KBC variant clamps them to 0, leaving the state unchanged but raising no
error.  The spec itself flags the missing guard as a latent defect of the
source. -/
theorem negative_gain_not_rejected :
    Tamagotchi.GameState.gain_xp ⟨50, 1⟩ (-30) = some (⟨20, 1⟩, []) ∧
      (⟨20, 1⟩ : Tamagotchi.GameState) ≠ ⟨50, 1⟩ ∧
      KBC.Player.gain_xp (KBC.Player.start 2 2) (-5) = KBC.Player.start 2 2 := by
  decide

/-- Claim C4: KBC `gain_xp` clamps the amount into `[0, 1]` before adding
it to both `xp` and `total_xp`; concretely `gain_xp 999` from the fresh
player yields `xp = 1` and `total_xp = 1`. -/
theorem kbc_gain_clamps :
    (∀ (p : KBC.Player) (a : Int),
        (p.gain_xp a).xp = p.xp + KBC.clampGain a ∧
        (p.gain_xp a).total_xp = p.total_xp + KBC.clampGain a ∧
        0 ≤ KBC.clampGain a ∧ KBC.clampGain a ≤ 1) ∧
      ((KBC.Player.start 2 2).gain_xp 999).xp = 1 ∧
      ((KBC.Player.start 2 2).gain_xp 999).total_xp = 1 :=
  ⟨fun p a => ⟨rfl, rfl, KBC.clampGain_nonneg a, KBC.clampGain_le_one a⟩,
    by decide, by decide⟩

/-- Claim C5: in the KBC variant `total_xp` never decreases under any
operation of the game loop, and after any sequence of `gain_xp` calls
from the fresh player it equals the running sum of the (clamped) gains
actually applied. -/
theorem kbc_total_running_sum :
    (∀ (p : KBC.Player) (op : KBC.Op),
        p.total_xp ≤ (KBC.applyOp p op).total_xp) ∧
      ∀ as : List Int,
        (as.foldl KBC.Player.gain_xp (KBC.Player.start 2 2)).total_xp =
          (as.map KBC.clampGain).sum :=
  ⟨KBC.applyOp_total_mono, fun as => by
    rw [KBC.foldl_gain_total]; simp [KBC.Player.start]⟩

/-- Claim C6: the gate test returns true exactly when
`total_xp ≥ threshold`, never changes the player, gives the same result
on repeated calls, and `Library.enter` leaves the player unchanged. -/
theorem gate_check_pure (p : KBC.Player) (t : Int) (_h : 0 ≤ t) :
    ((KBC.gateCheck p t).1 = true ↔ t ≤ p.total_xp) ∧
      (KBC.gateCheck p t).2 = p ∧
      KBC.gateCheck (KBC.gateCheck p t).2 t = KBC.gateCheck p t ∧
      (KBC.Library.enter ⟨t⟩ p).2 = p := by
  refine ⟨?_, rfl, rfl, rfl⟩
  simp [KBC.gateCheck]

/-- Concrete instance of C6 at the fresh player and threshold 50. -/
theorem gate_check_pure_witness :
    (0 : Int) ≤ 50 ∧
      (((KBC.gateCheck (KBC.Player.start 2 2) 50).1 = true ↔
          (50 : Int) ≤ (KBC.Player.start 2 2).total_xp) ∧
        (KBC.gateCheck (KBC.Player.start 2 2) 50).2 = KBC.Player.start 2 2 ∧
        KBC.gateCheck (KBC.gateCheck (KBC.Player.start 2 2) 50).2 50 =
          KBC.gateCheck (KBC.Player.start 2 2) 50 ∧
        (KBC.Library.enter ⟨50⟩ (KBC.Player.start 2 2)).2 =
          KBC.Player.start 2 2) :=
  ⟨by decide, gate_check_pure (KBC.Player.start 2 2) 50 (by decide)⟩

/-- Claim C7 fails as stated: `gain_xp 250` from `{xp:0, level:1}` yields
`{xp:150, level:2}`, not `{xp:50, level:2}`. -/
theorem apply_250_not_fifty :
    Tamagotchi.GameState.init.gain_xp 250 = some (⟨150, 2⟩, [2]) ∧
      (Tamagotchi.GameState.init.gain_xp 250).map Prod.fst ≠
        some ⟨50, 2⟩ := by
  decide

/-- Claim C7 amended: `gain_xp 250` from `{xp:0, level:1}` yields
`{xp:150, level:2}` with the single level-up notification 2. -/
theorem apply_250_result :
    Tamagotchi.GameState.init.gain_xp 250 = some (⟨150, 2⟩, [2]) := by
  decide

/-- Claim C8: under the unclamped KBC policy (modelled from the spec,
absent from src/), a gain of 20 from any player with `total_xp = 45`
flips the threshold-50 gate from false to true. -/
theorem unclamped_gate_transition (p : KBC.Player) (h : p.total_xp = 45) :
    (KBC.gateCheck p 50).1 = false ∧
      (KBC.gateCheck (KBC.unclampedGain p 20) 50).1 = true := by
  simp [KBC.gateCheck, KBC.unclampedGain, h]

/-- Concrete instance of C8 at the player `{x:2, y:2, xp:45,
total_xp:45, age:0}`. -/
theorem unclamped_gate_transition_witness :
    (KBC.Player.mk 2 2 45 45 0).total_xp = 45 ∧
      ((KBC.gateCheck (KBC.Player.mk 2 2 45 45 0) 50).1 = false ∧
        (KBC.gateCheck
          (KBC.unclampedGain (KBC.Player.mk 2 2 45 45 0) 20) 50).1 = true) :=
  ⟨by decide, unclamped_gate_transition ⟨2, 2, 45, 45, 0⟩ (by decide)⟩

/-- Claim C9: the Tamagotchi `gain_xp` while-loop terminates for every
integer amount from every state with `level ≥ 1` — `gainFuel` iterations
always suffice, since each pass removes `level * 100 ≥ 100` XP. -/
theorem gain_xp_terminates (st : Tamagotchi.GameState) (a : Int)
    (h : 1 ≤ st.level) : (st.gain_xp a).isSome = true := by
  obtain ⟨st', ns, hg⟩ := Tamagotchi.gain_xp_eq_some st a h
  simp [hg]

/-- Concrete instance of C9 at `{xp:0, level:1}` with amount 123456. -/
theorem gain_xp_terminates_witness :
    1 ≤ (Tamagotchi.GameState.mk 0 1).level ∧
      ((Tamagotchi.GameState.mk 0 1).gain_xp 123456).isSome = true :=
  ⟨by decide, gain_xp_terminates ⟨0, 1⟩ 123456 (by decide)⟩

/-- Claim C10: in the KBC variant `xp` and `total_xp` both start at 0 and
stay equal under every sequence of game-loop operations, since every
operation changes both by the same amount (or neither). -/
theorem kbc_xp_eq_total (sx sy : Int) (ops : List KBC.Op) :
    (KBC.Player.start sx sy).xp = 0 ∧
      (KBC.Player.start sx sy).total_xp = 0 ∧
      (ops.foldl KBC.applyOp (KBC.Player.start sx sy)).xp =
        (ops.foldl KBC.applyOp (KBC.Player.start sx sy)).total_xp := by
  refine ⟨rfl, rfl, ?_⟩
  have key : ∀ (l : List KBC.Op) (p : KBC.Player), p.xp = p.total_xp →
      (l.foldl KBC.applyOp p).xp = (l.foldl KBC.applyOp p).total_xp := by
    intro l
    induction l with
    | nil => intro p h; exact h
    | cons op l ih => intro p h; exact ih _ (KBC.applyOp_xp_eq_total p op h)
  exact key ops _ rfl
